import Mathlib

/-!
# Verification of the alert identity and on-call rotation subsystem

A shallow embedding, in Lean 4, of the core of the `grafana-ops` on-call
service: label-set fingerprinting (`generateFingerprint` in
`internal/oncall/store/store.go`), Prometheus webhook ingestion and the
alert-group upsert (`AlertProcessor.ProcessPrometheusWebhook` and
`AlertProcessor.upsertAlert` in the same file), on-call rotation resolution
(`Layer.GetOnCallUser` and `Schedule.GetCurrentOnCall` in
`internal/oncall/models`), the HTTP status-code checks of the Slack and
generic webhook notifiers (`internal/oncall/notifier/notifier.go`), and the
escalation-run re-entrancy discipline of the design document (the escalation
engine itself is not present in the source tree; that part is modelled from
the spec and marked as such).

Conventions of the embedding:
* Go machine integers are modelled as `Int`/`Nat`; Go's `/` and `%` on
  signed integers truncate toward zero and are rendered as `Int.tdiv` and
  `Int.tmod`.  Wrap-around of 64-bit time arithmetic is outside the
  modelled range (all claims concern quantities far below 2^63).
* Go run-time panics (integer divide by zero, slice index out of range)
  are modelled explicitly as the `GoPanic` error of an `Except`.
* Go map reads (`m[k]`, which yield the zero value `""` for a missing key)
  are modelled by `lookupGo` over an association list with distinct keys;
  map iteration order is the order of the association list.
* `crypto/sha256` and the `%x` rendering of `fmt` are embedded by an
  executable SHA-256 (FIPS 180-4) over byte lists and a lowercase
  hexadecimal renderer; all word arithmetic is `Nat` with explicit
  reduction modulo 2^32.
-/

/-! ## SHA-256 over byte lists (the embedding of `crypto/sha256.Sum256`) -/

/-- Truncation of a `Nat` to a 32-bit word. -/
def w32 (n : Nat) : Nat := n % 4294967296

/-- Right rotation of a 32-bit word by `k` bits. -/
def rotr (k n : Nat) : Nat := w32 ((n >>> k) ||| (n <<< (32 - k)))

/-- The big sigma-0 function of FIPS 180-4. -/
def bsig0 (x : Nat) : Nat := rotr 2 x ^^^ rotr 13 x ^^^ rotr 22 x

/-- The big sigma-1 function of FIPS 180-4. -/
def bsig1 (x : Nat) : Nat := rotr 6 x ^^^ rotr 11 x ^^^ rotr 25 x

/-- The small sigma-0 function of FIPS 180-4. -/
def ssig0 (x : Nat) : Nat := rotr 7 x ^^^ rotr 18 x ^^^ (x >>> 3)

/-- The small sigma-1 function of FIPS 180-4. -/
def ssig1 (x : Nat) : Nat := rotr 17 x ^^^ rotr 19 x ^^^ (x >>> 10)

/-- The 64 round constants of SHA-256. -/
def sha256K : List Nat :=
  [1116352408, 1899447441, 3049323471, 3921009573, 961987163, 1508970993,
   2453635748, 2870763221, 3624381080, 310598401, 607225278, 1426881987,
   1925078388, 2162078206, 2614888103, 3248222580, 3835390401, 4022224774,
   264347078, 604807628, 770255983, 1249150122, 1555081692, 1996064986,
   2554220882, 2821834349, 2952996808, 3210313671, 3336571891, 3584528711,
   113926993, 338241895, 666307205, 773529912, 1294757372, 1396182291,
   1695183700, 1986661051, 2177026350, 2456956037, 2730485921, 2820302411,
   3259730800, 3345764771, 3516065817, 3600352804, 4094571909, 275423344,
   430227734, 506948616, 659060556, 883997877, 958139571, 1322822218,
   1537002063, 1747873779, 1955562222, 2024104815, 2227730452, 2361852424,
   2428436474, 2756734187, 3204031479, 3329325298]

/-- The eight working words of the SHA-256 state. -/
structure Sha256State where
  a : Nat
  b : Nat
  c : Nat
  d : Nat
  e : Nat
  f : Nat
  g : Nat
  h : Nat

/-- The SHA-256 initial hash value. -/
def sha256Init : Sha256State :=
  ⟨1779033703, 3144134277, 1013904242, 2773480762, 1359893119, 2600822924, 528734635, 1541459225⟩

/-- Big-endian 32-bit words of a byte list (a trailing fragment shorter
than four bytes is dropped; blocks fed to it are always 64 bytes). -/
def toWords : List Nat → List Nat
  | b0 :: b1 :: b2 :: b3 :: rest => (b0 * 16777216 + b1 * 65536 + b2 * 256 + b3) :: toWords rest
  | _ => []

/-- Message-schedule extension: append `n` further words, each computed
from the last sixteen, reduced modulo 2^32. -/
def extendLoop : Nat → List Nat → List Nat
  | 0, acc => acc
  | n + 1, acc =>
      extendLoop n (acc ++ [w32 (ssig1 (acc.getD (acc.length - 2) 0) + acc.getD (acc.length - 7) 0 +
        ssig0 (acc.getD (acc.length - 15) 0) + acc.getD (acc.length - 16) 0)])

/-- One SHA-256 compression round; `kw` is the pair of round constant and
schedule word. -/
def sha256Round (st : Sha256State) (kw : Nat × Nat) : Sha256State :=
  let t1 := w32 (st.h + bsig1 st.e + ((st.e &&& st.f) ^^^ ((4294967295 ^^^ st.e) &&& st.g)) +
    kw.1 + kw.2)
  let t2 := w32 (bsig0 st.a + ((st.a &&& st.b) ^^^ (st.a &&& st.c) ^^^ (st.b &&& st.c)))
  ⟨w32 (t1 + t2), st.a, st.b, st.c, w32 (st.d + t1), st.e, st.f, st.g⟩

/-- Process one 64-byte block: 64 rounds, then add the result into the
incoming state, word-wise modulo 2^32. -/
def sha256Block (st : Sha256State) (block : List Nat) : Sha256State :=
  let ws := extendLoop 48 (toWords block)
  let r := (sha256K.zip ws).foldl sha256Round st
  ⟨w32 (st.a + r.a), w32 (st.b + r.b), w32 (st.c + r.c), w32 (st.d + r.d),
   w32 (st.e + r.e), w32 (st.f + r.f), w32 (st.g + r.g), w32 (st.h + r.h)⟩

/-- Split a byte list into 64-byte blocks (a trailing fragment shorter than
64 bytes is dropped; padded messages are always an exact multiple). -/
def chunks64 : List Nat → List (List Nat)
  | b0 :: b1 :: b2 :: b3 :: b4 :: b5 :: b6 :: b7 :: b8 :: b9 :: b10 :: b11 :: b12 :: b13 :: b14 ::
    b15 :: b16 :: b17 :: b18 :: b19 :: b20 :: b21 :: b22 :: b23 :: b24 :: b25 :: b26 :: b27 ::
    b28 :: b29 :: b30 :: b31 :: b32 :: b33 :: b34 :: b35 :: b36 :: b37 :: b38 :: b39 :: b40 ::
    b41 :: b42 :: b43 :: b44 :: b45 :: b46 :: b47 :: b48 :: b49 :: b50 :: b51 :: b52 :: b53 ::
    b54 :: b55 :: b56 :: b57 :: b58 :: b59 :: b60 :: b61 :: b62 :: b63 :: rest =>
      [b0, b1, b2, b3, b4, b5, b6, b7, b8, b9, b10, b11, b12, b13, b14, b15, b16, b17, b18, b19,
       b20, b21, b22, b23, b24, b25, b26, b27, b28, b29, b30, b31, b32, b33, b34, b35, b36, b37,
       b38, b39, b40, b41, b42, b43, b44, b45, b46, b47, b48, b49, b50, b51, b52, b53, b54, b55,
       b56, b57, b58, b59, b60, b61, b62, b63] :: chunks64 rest
  | _ => []

/-- SHA-256 padding: a `0x80` byte, zeros up to 56 modulo 64, then the bit
length as eight big-endian bytes. -/
def sha256Pad (m : List Nat) : List Nat :=
  let bitLen := 8 * m.length
  m ++ [128] ++ List.replicate ((119 - m.length % 64) % 64) 0 ++
    [(bitLen >>> 56) % 256, (bitLen >>> 48) % 256, (bitLen >>> 40) % 256, (bitLen >>> 32) % 256,
     (bitLen >>> 24) % 256, (bitLen >>> 16) % 256, (bitLen >>> 8) % 256, bitLen % 256]

/-- The four big-endian bytes of a 32-bit word (`byte(w >> k)` in Go
truncates modulo 256). -/
def wordBytes (w : Nat) : List Nat := [(w >>> 24) % 256, (w >>> 16) % 256, (w >>> 8) % 256, w % 256]

/-- The 32-byte digest of a final SHA-256 state. -/
def digestBytes (st : Sha256State) : List Nat :=
  wordBytes st.a ++ wordBytes st.b ++ wordBytes st.c ++ wordBytes st.d ++
  wordBytes st.e ++ wordBytes st.f ++ wordBytes st.g ++ wordBytes st.h

/-- SHA-256 of a byte list, as the list of the 32 digest bytes. -/
def sha256Bytes (m : List Nat) : List Nat :=
  digestBytes ((chunks64 (sha256Pad m)).foldl sha256Block sha256Init)

/-! ## Lowercase hexadecimal rendering (the embedding of `fmt.Sprintf "%x"`) -/

/-- The sixteen lowercase hexadecimal digit characters. -/
def hexDigitChars : List Char := "0123456789abcdef".data

/-- The hexadecimal digit character for a value below sixteen. -/
def hexChar (n : Nat) : Char := hexDigitChars.getD n '0'

/-- The two lowercase hexadecimal digits of one byte. -/
def byteHex (b : Nat) : List Char := [hexChar (b / 16), hexChar (b % 16)]

/-- Lowercase hexadecimal rendering of a byte list, two digits per byte. -/
def hexRender (bs : List Nat) : List Char := (bs.map byteHex).flatten

/-! ## UTF-8 (the embedding of Go's `[]byte(s)` on its UTF-8 strings) -/

/-- The UTF-8 byte sequence of one character. -/
def utf8Char (c : Char) : List Nat :=
  let n := c.toNat
  if n < 128 then [n]
  else if n < 2048 then [192 + n / 64, 128 + n % 64]
  else if n < 65536 then [224 + n / 4096, 128 + (n / 64) % 64, 128 + n % 64]
  else [240 + n / 262144, 128 + (n / 4096) % 64, 128 + (n / 64) % 64, 128 + n % 64]

/-- The UTF-8 bytes of a string. -/
def utf8Bytes (s : String) : List Nat := (s.data.map utf8Char).flatten

/-! ## Fingerprinting (`generateFingerprint` in `internal/oncall/store/store.go`)

A Go `map[string]string` is embedded as an association list with distinct
keys; `lookupGo` is the Go map read (zero value `""` for a missing key) and
`labelKeys` is the key set produced by map iteration.
-/

/-- A label mapping: the association list underlying a Go
`map[string]string`.  Well-formed values have distinct keys. -/
abbrev Labels := List (String × String)

/-- Keys excluded from the fingerprint: `severity` and every key with the
reserved prefix `__`. -/
def excludedKey (k : String) : Bool := k == "severity" || k.startsWith "__"

/-- Go map read `m[k]`: the value of the first pair with key `k`, or the
zero value `""` when the key is absent. -/
def lookupGo (l : Labels) (k : String) : String :=
  match l.find? (fun p => p.1 == k) with
  | some p => p.2
  | none => ""

/-- Go map read with explicit absence: `some v` when the key is present. -/
def lookupOpt (l : Labels) (k : String) : Option String :=
  (l.find? (fun p => p.1 == k)).map (fun p => p.2)

/-- The keys of a label mapping, in iteration order. -/
def labelKeys (l : Labels) : List String := l.map Prod.fst

/-- The keys sorted lexicographically (`sort.Strings`; byte-wise order on
UTF-8 strings coincides with the code-point order used here). -/
def sortedKeys (l : Labels) : List String :=
  (labelKeys l).mergeSort (fun a b => decide (a ≤ b))

/-- The `key=value` parts of the canonical string: sorted keys, excluded
keys skipped, each joined with its looked-up value. -/
def canonicalParts (l : Labels) : List String :=
  ((sortedKeys l).filter (fun k => !excludedKey k)).map (fun k => k ++ "=" ++ lookupGo l k)

/-- The canonical pre-hash string: the parts joined with `|`. -/
def canonicalString (l : Labels) : String :=
  String.intercalate "|" (canonicalParts l)

/-- `generateFingerprint`: SHA-256 of the canonical string, truncated to
its first 8 bytes and rendered as 16 lowercase hexadecimal characters. -/
def generateFingerprint (l : Labels) : String :=
  String.mk (hexRender ((sha256Bytes (utf8Bytes (canonicalString l))).take 8))

/-! ## Rotation resolution (`internal/oncall/models`, `Layer.GetOnCallUser`
and `Schedule.GetCurrentOnCall`)

Instants and durations are `Int` nanoseconds.  Go's `/` and `%` on signed
integers truncate toward zero (`Int.tdiv`, `Int.tmod`); dividing by a zero
interval and indexing a slice with a negative index are run-time panics. -/

/-- A Go run-time panic reachable in the rotation resolver. -/
inductive GoPanic where
  | integerDivideByZero
  | indexOutOfRange
deriving DecidableEq

/-- A schedule layer (`models.Layer`): rotation type, start instant in
nanoseconds, custom duration in hours, users in rotation order. -/
structure Layer where
  rotationType : String
  rotationStart : Int
  durationHours : Int
  users : List String
deriving DecidableEq

/-- One hour in nanoseconds (`time.Hour`). -/
def hourNs : Int := 3600000000000

/-- The rotation interval chosen by the `switch` in `GetOnCallUser`:
24h for `daily`, 7×24h for `weekly`, `durationHours` hours otherwise. -/
def rotationIntervalNs (l : Layer) : Int :=
  if l.rotationType = "daily" then 24 * hourNs
  else if l.rotationType = "weekly" then 7 * 24 * hourNs
  else l.durationHours * hourNs

/-- `Layer.GetOnCallUser`: empty user list resolves to `""`; otherwise
`rotations := duration / interval` (truncated), `userIndex := rotations %
len(users)` (sign of the dividend), then a bounds-checked slice index.
The Go function's `error` return is always `nil`; the `Except` error is a
run-time panic, not that return value. -/
def Layer.GetOnCallUser (l : Layer) (t : Int) : Except GoPanic String :=
  if l.users.length = 0 then .ok ""
  else
    let duration : Int := t - l.rotationStart
    let interval : Int := rotationIntervalNs l
    if interval = 0 then .error .integerDivideByZero
    else
      let rotations : Int := duration.tdiv interval
      let userIndex : Int := rotations.tmod (l.users.length : Int)
      if 0 ≤ userIndex ∧ userIndex < (l.users.length : Int) then .ok (l.users.getD userIndex.toNat "")
      else .error .indexOutOfRange

/-- A schedule (`models.Schedule`): its ordered layers. -/
structure Schedule where
  layers : List Layer

/-- The loop body of `Schedule.GetCurrentOnCall`: try each layer in order,
return the first layer whose resolution returns a non-empty user, and `""`
when the layers are exhausted.  A panic inside a layer propagates. -/
def resolveLayers : List Layer → Int → Except GoPanic String
  | [], _ => .ok ""
  | l :: rest, t =>
    match l.GetOnCallUser t with
    | .error p => .error p
    | .ok u => if u ≠ "" then .ok u else resolveLayers rest t

/-- `Schedule.GetCurrentOnCall`. -/
def Schedule.GetCurrentOnCall (s : Schedule) (t : Int) : Except GoPanic String :=
  resolveLayers s.layers t

/-- The user a layer yields when its resolution returns (used to state the
first-non-empty property of schedule resolution). -/
def layerUser (l : Layer) (t : Int) : String :=
  match l.GetOnCallUser t with
  | .ok u => u
  | .error _ => ""

/-- The resolution the spec describes for a schedule: the first non-empty
layer result in layer order, or empty when no layer yields one. -/
def firstNonEmptyUser (s : Schedule) (t : Int) : String :=
  ((s.layers.map (fun l => layerUser l t)).find? (fun u => u != "")).getD ""

/-- The claim's per-layer index formula: floor division of the elapsed time
by the interval, wrapped by a modulo that is non-negative for a positive
modulus. -/
def floorRotationIndex (start interval t : Int) (n : Nat) : Int :=
  ((t - start).fdiv interval).emod (n : Int)

/-! ## Alert ingestion and the upsert
(`AlertProcessor.ProcessPrometheusWebhook`, `AlertProcessor.upsertAlert`)

The `alert_groups` table is embedded as a list of rows; its `fingerprint`
column is `UNIQUE`, which the `ON CONFLICT(fingerprint) DO UPDATE` upsert
maintains.  JSON marshalling of label maps is embedded as the identity on
the association list.  `time.Now()` is passed in as the `now` argument. -/

/-- One inbound alert of a Prometheus webhook payload. -/
structure InAlert where
  status : String
  labels : Labels
  annotations : Labels

/-- A stored `alert_groups` row (`id` is the AUTOINCREMENT surrogate). -/
structure AlertRow where
  id : Nat
  fingerprint : String
  status : String
  severity : String
  summary : String
  description : String
  labels : Labels
  annotations : Labels
  createdAt : Int
  updatedAt : Int
deriving DecidableEq

/-- Severity derivation: label `severity`, defaulting to `info` when the
map read yields `""` (absent or empty). -/
def goSeverity (ls : Labels) : String :=
  let s := lookupGo ls "severity"
  if s = "" then "info" else s

/-- Summary derivation: annotation `summary`, falling back to label
`alertname` when the map read yields `""`. -/
def goSummary (ls annots : Labels) : String :=
  let s := lookupGo annots "summary"
  if s = "" then lookupGo ls "alertname" else s

/-- Description derivation: annotation `description` (`""` when absent). -/
def goDescription (annots : Labels) : String := lookupGo annots "description"

/-- The `models.AlertGroup` value built for one inbound alert, before the
upsert (`CreatedAt` and `UpdatedAt` both set to the ingestion time). -/
def buildAlertGroup (a : InAlert) (now : Int) : AlertRow :=
  { id := 0
    fingerprint := generateFingerprint a.labels
    status := a.status
    severity := goSeverity a.labels
    summary := goSummary a.labels a.annotations
    description := goDescription a.annotations
    labels := a.labels
    annotations := a.annotations
    createdAt := now
    updatedAt := now }

/-- The `DO UPDATE` arm of the upsert: overwrite the mutable columns from
the excluded (incoming) row, leaving `id` and `created_at` in place. -/
def applyUpdate (g r : AlertRow) : AlertRow :=
  { id := r.id
    fingerprint := r.fingerprint
    status := g.status
    severity := g.severity
    summary := g.summary
    description := g.description
    labels := g.labels
    annotations := g.annotations
    createdAt := r.createdAt
    updatedAt := g.updatedAt }

/-- The freshly inserted row: the incoming group with the next
AUTOINCREMENT surrogate id. -/
def insertedRow (st : List AlertRow) (g : AlertRow) : AlertRow :=
  { id := st.length + 1
    fingerprint := g.fingerprint
    status := g.status
    severity := g.severity
    summary := g.summary
    description := g.description
    labels := g.labels
    annotations := g.annotations
    createdAt := g.createdAt
    updatedAt := g.updatedAt }

/-- `upsertAlert`: insert on a fresh fingerprint (with the next surrogate
id), otherwise update the conflicting row in place. -/
def upsertAlert (st : List AlertRow) (g : AlertRow) : List AlertRow :=
  if st.any (fun r => r.fingerprint == g.fingerprint) then
    st.map (fun r => if r.fingerprint == g.fingerprint then applyUpdate g r else r)
  else st ++ [insertedRow st g]

/-- Ingestion of one alert: build the group, upsert it; returns the new
table state and the built group. -/
def processOne (st : List AlertRow) (a : InAlert) (now : Int) : List AlertRow × AlertRow :=
  (upsertAlert st (buildAlertGroup a now), buildAlertGroup a now)

/-- `ProcessPrometheusWebhook`: each alert of the batch is ingested in
order; the built groups are returned.  No input is rejected: there is no
validation path, and the store upsert is the only failure source (modelled
as always committing). -/
def processPrometheusWebhook (st : List AlertRow) (alerts : List InAlert) (now : Int) :
    List AlertRow × List AlertRow :=
  alerts.foldl (fun acc a => ((processOne acc.1 a now).1, acc.2 ++ [(processOne acc.1 a now).2]))
    (st, [])

/-- Severity as the spec words it: label `severity` with explicit absence,
defaulting to `info` when the label is absent or empty. -/
def specSeverity (ls : Labels) : String :=
  match lookupOpt ls "severity" with
  | none => "info"
  | some v => if v = "" then "info" else v

/-- Summary as the spec words it: annotation `summary`, falling back to
label `alertname`, falling back to `""`.  Through Go map reads an absent
and an empty value are indistinguishable, so the fallback triggers on an
absent-or-empty annotation. -/
def specSummary (ls annots : Labels) : String :=
  match lookupOpt annots "summary" with
  | some v =>
    if v ≠ "" then v
    else match lookupOpt ls "alertname" with
      | some u => u
      | none => ""
  | none =>
    match lookupOpt ls "alertname" with
    | some u => u
    | none => ""

/-- Description as the spec words it: annotation `description`, `""` when
absent. -/
def specDescription (annots : Labels) : String :=
  match lookupOpt annots "description" with
  | some v => v
  | none => ""

/-! ## Notifier status-code checks (`internal/oncall/notifier/notifier.go`)

Only the response handling after a completed HTTP round trip is embedded:
transport errors abort earlier in both senders, identically. -/

/-- `SlackNotifier.Send` after the HTTP round trip: any status other than
exactly 200 is an error. -/
def slackSendResult (statusCode : Int) : Except String Unit :=
  if statusCode ≠ 200 then .error ("slack webhook returned status " ++ toString statusCode)
  else .ok ()

/-- `WebhookNotifier.Send` after the HTTP round trip: any status in
[200, 300) succeeds. -/
def webhookSendResult (statusCode : Int) : Except String Unit :=
  if statusCode < 200 ∨ 300 ≤ statusCode then
    .error ("webhook returned status " ++ toString statusCode)
  else .ok ()

/-! ## Escalation runs

Modelled from the spec: the escalation engine of design section 4.4 is not
present in the source tree (only the `EscalationChain`/`EscalationPolicy`
data types and CRUD placeholders exist), so the run registry and its
re-entrancy rule — one active `EscalationRun` per alert-group fingerprint,
starting a second being a no-op — are modelled from the spec's words. -/

/-- Modelled from the spec: the states of an escalation run; the three
`stopped` states are terminal. -/
inductive RunState where
  | pending
  | notifying
  | waiting
  | stoppedAcknowledged
  | stoppedResolved
  | stoppedExhausted
deriving DecidableEq

/-- Whether a run state is terminal. -/
def RunState.isTerminal : RunState → Bool
  | .stoppedAcknowledged => true
  | .stoppedResolved => true
  | .stoppedExhausted => true
  | _ => false

/-- Modelled from the spec: one escalation run bound to an alert-group
fingerprint. -/
structure EscalationRun where
  fingerprint : String
  currentStep : Nat
  state : RunState
deriving DecidableEq

/-- Whether a run is the non-terminal run of the given fingerprint. -/
def isActiveFor (fp : String) (r : EscalationRun) : Bool :=
  r.fingerprint == fp && !r.state.isTerminal

/-- Whether some non-terminal run exists for the fingerprint. -/
def hasActiveRun (runs : List EscalationRun) (fp : String) : Bool :=
  runs.any (isActiveFor fp)

/-- Modelled from the spec: starting a run is a no-op when a non-terminal
run already exists for the fingerprint; otherwise a fresh `pending` run is
created. -/
def startRun (runs : List EscalationRun) (fp : String) : List EscalationRun :=
  if hasActiveRun runs fp then runs else ⟨fp, 0, .pending⟩ :: runs

/-- Modelled from the spec: advancing the fingerprint's active run to its
next step (only the existing run instance progresses). -/
def advanceRun (runs : List EscalationRun) (fp : String) : List EscalationRun :=
  runs.map (fun r =>
    if isActiveFor fp r then { r with currentStep := r.currentStep + 1, state := .notifying }
    else r)

/-- Modelled from the spec: finalizing the fingerprint's active run into a
terminal state (acknowledged, resolved, or exhausted). -/
def finalizeRun (runs : List EscalationRun) (fp : String) (s : RunState) : List EscalationRun :=
  runs.map (fun r => if isActiveFor fp r then { r with state := s } else r)

/-- The number of non-terminal runs bound to a fingerprint. -/
def activeCount (runs : List EscalationRun) (fp : String) : Nat :=
  (runs.filter (isActiveFor fp)).length

/-- The re-entrancy invariant: at most one non-terminal run per
fingerprint. -/
def atMostOneActive (runs : List EscalationRun) : Prop :=
  ∀ fp, activeCount runs fp ≤ 1

/-! ## Concrete instances used by the claim theorems and witnesses -/

/-- A daily layer whose rotation starts one day after the epoch of the
query instants used below. -/
def c1Layer : Layer :=
  { rotationType := "daily", rotationStart := 86400000000000, durationHours := 0,
    users := ["alice", "bob", "charlie"] }

/-- A custom layer with `durationHours = 0`. -/
def c2LayerZero : Layer :=
  { rotationType := "custom", rotationStart := 0, durationHours := 0, users := ["alice"] }

/-- A custom layer with negative `durationHours`, whose rotation starts two
hours after the query instant used below. -/
def c2LayerNeg : Layer :=
  { rotationType := "custom", rotationStart := 7200000000000, durationHours := -1,
    users := ["alice", "bob"] }

/-- A schedule whose first layer has no users and whose second resolves to
`bob`. -/
def c7Schedule : Schedule :=
  ⟨[{ rotationType := "daily", rotationStart := 0, durationHours := 0, users := [] },
    { rotationType := "daily", rotationStart := 0, durationHours := 0, users := ["bob"] }]⟩

/-- A firing alert event. -/
def c3Alert1 : InAlert := ⟨"firing", [("alertname", "HighErrorRate")], []⟩

/-- A second event for the same label set, with different status, severity
and annotations. -/
def c3Alert2 : InAlert :=
  ⟨"resolved", [("alertname", "HighErrorRate")], [("summary", "rate recovered")]⟩

/-- An alert event carrying no labels at all. -/
def c6Alert : InAlert := ⟨"firing", [], []⟩

/-! ## The label-mapping relations of the fingerprint-invariance claim -/

/-- Two label mappings containing the same key-value pairs up to iteration
order. -/
def samePairsUpToOrder (l1 l2 : Labels) : Prop := l1.Perm l2

/-- Two label mappings differing only in the value of the key `severity`:
the same keys, and the same pairs at every other key. -/
def differOnlyInSeverityValue (l1 l2 : Labels) : Prop :=
  (∀ k, k ∈ labelKeys l1 ↔ k ∈ labelKeys l2) ∧
  (∀ k v, k ≠ "severity" → ((k, v) ∈ l1 ↔ (k, v) ∈ l2))

/-- Two label mappings differing only in keys with the reserved prefix
`__`: outside that prefix, the same keys and the same pairs. -/
def differOnlyInReservedKeys (l1 l2 : Labels) : Prop :=
  ∀ k, k.startsWith "__" = false →
    ((k ∈ labelKeys l1 ↔ k ∈ labelKeys l2) ∧ ∀ v, ((k, v) ∈ l1 ↔ (k, v) ∈ l2))

/-- A label mapping, and the same mapping in another iteration order. -/
def c4Labels1 : Labels :=
  [("alertname", "HighErrorRate"), ("service", "api"), ("severity", "critical")]

/-- The pairs of `c4Labels1`, iterated in a different order. -/
def c4Labels2 : Labels :=
  [("service", "api"), ("alertname", "HighErrorRate"), ("severity", "critical")]

/-! ## Helper lemmas -/

theorem resolveLayers_ok (t : Int) :
    ∀ ls : List Layer, (∀ l ∈ ls, (l.GetOnCallUser t).isOk = true) →
      resolveLayers ls t = .ok (((ls.map (fun l => layerUser l t)).find? (fun u => u != "")).getD "")
  | [], _ => by simp [resolveLayers]
  | l :: rest, h => by
    have hl := h l (by simp)
    cases hres : l.GetOnCallUser t with
    | error p => rw [hres] at hl; simp [Except.isOk, Except.toBool] at hl
    | ok u =>
      have ih := resolveLayers_ok t rest (fun x hx => h x (List.mem_cons_of_mem _ hx))
      by_cases hu : u = ""
      · subst hu
        simp [resolveLayers, hres, layerUser, ih]
      · simp [resolveLayers, hres, layerUser, hu]

theorem activeCount_eq_zero_of_not_hasActive {runs : List EscalationRun} {fp : String}
    (h : hasActiveRun runs fp = false) : activeCount runs fp = 0 := by
  unfold hasActiveRun at h
  unfold activeCount
  rw [List.any_eq_false] at h
  rw [List.length_eq_zero]
  exact List.filter_eq_nil_iff.mpr fun r hr => by simpa using h r hr

theorem activeCount_map_le (fp : String) (f : EscalationRun → EscalationRun)
    (hf : ∀ r, isActiveFor fp (f r) = true → isActiveFor fp r = true) :
    ∀ runs : List EscalationRun, activeCount (runs.map f) fp ≤ activeCount runs fp
  | [] => Nat.le_refl _
  | r :: rest => by
    have ih := activeCount_map_le fp f hf rest
    unfold activeCount at ih ⊢
    rw [List.map_cons, List.filter_cons, List.filter_cons]
    cases h1 : isActiveFor fp (f r) with
    | true =>
      rw [hf r h1]
      simpa using Nat.succ_le_succ ih
    | false =>
      cases h2 : isActiveFor fp r <;> simp <;> omega

/-! ## Claim theorems -/

/-- Claim C1: the claim says `Layer.GetOnCallUser` resolves every instant,
including instants strictly before `rotationStart`, via floor division and
a non-negative modulo, never erring.  The code instead truncates toward
zero and uses Go's signed `%`: for a daily layer queried exactly one day
before its rotation start it panics with an index-out-of-range (slice index
`-1`), while the claim's formula yields index 2, i.e. `charlie`. -/
theorem getOnCallUser_prestart_panics :
    c1Layer.GetOnCallUser 0 = .error .indexOutOfRange ∧
    floorRotationIndex c1Layer.rotationStart (rotationIntervalNs c1Layer) 0
      c1Layer.users.length = 2 ∧
    c1Layer.users.getD 2 "" = "charlie" :=
  ⟨rfl, rfl, rfl⟩

/-- Claim C2: the claim says a custom layer with non-positive
`durationHours` raises `ConfigurationError`.  The code has no such error
path: with `durationHours = 0` it panics with an integer division by zero,
and with `durationHours = -1` (queried before the rotation start, where the
two negative signs cancel) it silently returns a user. -/
theorem custom_nonpositive_duration_no_config_error :
    c2LayerZero.GetOnCallUser 0 = .error .integerDivideByZero ∧
    c2LayerNeg.GetOnCallUser 0 = .ok "alice" :=
  ⟨rfl, rfl⟩

/-- Claim C7: `Schedule.GetCurrentOnCall` tries the layers in their defined
order and returns the first layer's non-empty resolved user, falling
through layers that yield an empty result, and yielding the empty result —
not an error — when no layer produces a user.  Stated for every schedule
and instant at which each layer's resolution returns (a layer that panics
is the subject of C1/C2, not of this claim). -/
theorem getCurrentOnCall_first_nonempty (s : Schedule) (t : Int)
    (h : ∀ l ∈ s.layers, (l.GetOnCallUser t).isOk = true) :
    s.GetCurrentOnCall t = .ok (firstNonEmptyUser s t) :=
  resolveLayers_ok t s.layers h

/-- Witness for C7 at a concrete schedule: the first layer has no users, so
resolution falls through to the second layer's `bob`. -/
theorem getCurrentOnCall_first_nonempty_witness :
    (∀ l ∈ c7Schedule.layers, (l.GetOnCallUser 43200000000000).isOk = true) ∧
    c7Schedule.GetCurrentOnCall 43200000000000 =
      .ok (firstNonEmptyUser c7Schedule 43200000000000) ∧
    firstNonEmptyUser c7Schedule 43200000000000 = "bob" :=
  ⟨by decide, getCurrentOnCall_first_nonempty c7Schedule 43200000000000 (by decide), rfl⟩

/-- Claim C9 (modelled from the spec, the engine being absent from the
source): at most one non-terminal escalation run exists per fingerprint —
the empty registry satisfies the invariant, every operation (start,
advance, finalize) preserves it, and starting a run for a fingerprint that
already has a non-terminal run is a no-op, so only the existing run
instance progresses. -/
theorem isActive_of_isActive_advanced (fp fp2 : String) (r : EscalationRun)
    (hr : isActiveFor fp2
      (if isActiveFor fp r then { r with currentStep := r.currentStep + 1, state := .notifying }
       else r) = true) :
    isActiveFor fp2 r = true := by
  cases hra : isActiveFor fp r with
  | false => rw [hra] at hr; simpa using hr
  | true =>
    rw [hra] at hr
    simp only [if_true] at hr
    have hterm : r.state.isTerminal = false := by
      unfold isActiveFor at hra
      cases hs : r.state.isTerminal
      · rfl
      · rw [hs] at hra; simp at hra
    unfold isActiveFor at hr ⊢
    simp only [hterm, Bool.not_false, Bool.and_true] at hr ⊢
    simpa [RunState.isTerminal] using hr

theorem isActive_of_isActive_finalized (fp fp2 : String) (s : RunState) (r : EscalationRun)
    (hr : isActiveFor fp2 (if isActiveFor fp r then { r with state := s } else r) = true) :
    isActiveFor fp2 r = true := by
  cases hra : isActiveFor fp r with
  | false => rw [hra] at hr; simpa using hr
  | true =>
    rw [hra] at hr
    simp only [if_true] at hr
    have hterm : r.state.isTerminal = false := by
      unfold isActiveFor at hra
      cases hs : r.state.isTerminal
      · rfl
      · rw [hs] at hra; simp at hra
    unfold isActiveFor at hr ⊢
    simp only [hterm, Bool.not_false, Bool.and_true]
    simp only [Bool.and_eq_true] at hr
    exact hr.1

/-- Claim C9 (modelled from the spec, the engine being absent from the
source): at most one non-terminal escalation run exists per fingerprint —
the empty registry satisfies the invariant, every operation (start,
advance, finalize) preserves it, and starting a run for a fingerprint that
already has a non-terminal run is a no-op, so only the existing run
instance progresses. -/
theorem escalation_run_reentrancy :
    atMostOneActive [] ∧
    (∀ runs fp, hasActiveRun runs fp = true → startRun runs fp = runs) ∧
    (∀ runs fp, atMostOneActive runs → atMostOneActive (startRun runs fp)) ∧
    (∀ runs fp, atMostOneActive runs → atMostOneActive (advanceRun runs fp)) ∧
    (∀ runs fp s, atMostOneActive runs → atMostOneActive (finalizeRun runs fp s)) := by
  refine ⟨fun fp => by simp [activeCount], ?_, ?_, ?_, ?_⟩
  · intro runs fp h
    simp [startRun, h]
  · intro runs fp h fp2
    cases hact : hasActiveRun runs fp with
    | true =>
      unfold startRun
      rw [hact]
      simpa using h fp2
    | false =>
      unfold startRun
      rw [hact]
      simp only [Bool.false_eq_true, if_false]
      unfold activeCount
      rw [List.filter_cons]
      by_cases heq : fp2 = fp
      · subst heq
        have h0 : activeCount runs fp2 = 0 := activeCount_eq_zero_of_not_hasActive hact
        unfold activeCount at h0
        simp [isActiveFor, RunState.isTerminal, h0]
      · have hne : isActiveFor fp2 (⟨fp, 0, .pending⟩ : EscalationRun) = false := by
          simp only [isActiveFor, RunState.isTerminal, Bool.not_false, Bool.and_true]
          exact beq_false_of_ne (Ne.symm heq)
        rw [hne]
        simp only [Bool.false_eq_true, if_false]
        exact h fp2
  · intro runs fp h fp2
    exact Nat.le_trans
      (activeCount_map_le fp2 _ (fun r => isActive_of_isActive_advanced fp fp2 r) runs) (h fp2)
  · intro runs fp s h fp2
    exact Nat.le_trans
      (activeCount_map_le fp2 _ (fun r => isActive_of_isActive_finalized fp fp2 s r) runs) (h fp2)

/-- Witness for C9 at a concrete registry holding one active run: the
invariant holds and a second start for the same fingerprint changes
nothing. -/
theorem escalation_run_reentrancy_witness :
    hasActiveRun [⟨"fp1", 0, .notifying⟩] "fp1" = true ∧
    startRun [⟨"fp1", 0, .notifying⟩] "fp1" = [⟨"fp1", 0, .notifying⟩] :=
  ⟨by decide, escalation_run_reentrancy.2.1 [⟨"fp1", 0, .notifying⟩] "fp1" (by decide)⟩

/-- Claim C10: `SlackNotifier.Send` treats every status other than exactly
200 as an error — including the success statuses 202 and 204 — while
`WebhookNotifier.Send` succeeds for every status in [200, 300): the two
channels disagree on which successful HTTP statuses count as a successful
dispatch. -/
theorem notifier_status_code_disagreement :
    (∀ c : Int, c ≠ 200 → (slackSendResult c).isOk = false) ∧
    (∀ c : Int, 200 ≤ c → c < 300 → (webhookSendResult c).isOk = true) ∧
    (slackSendResult 202).isOk = false ∧ (webhookSendResult 202).isOk = true ∧
    (slackSendResult 204).isOk = false ∧ (webhookSendResult 204).isOk = true := by
  refine ⟨?_, ?_, by decide, by decide, by decide, by decide⟩
  · intro c hc
    simp [slackSendResult, hc, Except.isOk, Except.toBool]
  · intro c h1 h2
    have : ¬(c < 200 ∨ 300 ≤ c) := by omega
    simp [webhookSendResult, this, Except.isOk, Except.toBool]

/-- Witness for C10 at status 202: Slack rejects it, the generic webhook
accepts it. -/
theorem notifier_status_code_disagreement_witness :
    (slackSendResult 202).isOk = false ∧ (webhookSendResult 202).isOk = true :=
  ⟨notifier_status_code_disagreement.1 202 (by decide),
   notifier_status_code_disagreement.2.1 202 (by decide) (by decide)⟩

theorem lookupGo_eq_getD_lookupOpt (l : Labels) (k : String) :
    lookupGo l k = (lookupOpt l k).getD "" := by
  unfold lookupGo lookupOpt
  cases l.find? (fun p => p.1 == k) <;> simp

theorem upsertAlert_absent (st : List AlertRow) (g : AlertRow)
    (h : ∀ r ∈ st, r.fingerprint ≠ g.fingerprint) :
    upsertAlert st g = st ++ [insertedRow st g] := by
  have hany : st.any (fun r => r.fingerprint == g.fingerprint) = false := by
    rw [List.any_eq_false]
    intro r hr
    simpa using h r hr
  simp [upsertAlert, hany]

/-- Claim C3: ingesting the same fingerprint twice — the second event with
different status, severity, summary, description, labels or annotations —
leaves exactly one row for that fingerprint, whose `createdAt` is the first
ingestion's time, whose `updatedAt` is the second ingestion's time, and
whose mutable fields are the second event's values. -/
theorem upsert_same_fingerprint_twice (st : List AlertRow) (a1 a2 : InAlert) (t1 t2 : Int)
    (hfp : generateFingerprint a2.labels = generateFingerprint a1.labels)
    (habs : ∀ r ∈ st, r.fingerprint ≠ generateFingerprint a1.labels) :
    ((processOne (processOne st a1 t1).1 a2 t2).1.filter
      (fun r => r.fingerprint == generateFingerprint a1.labels)) =
    [{ id := st.length + 1, fingerprint := generateFingerprint a1.labels, status := a2.status,
       severity := goSeverity a2.labels, summary := goSummary a2.labels a2.annotations,
       description := goDescription a2.annotations, labels := a2.labels,
       annotations := a2.annotations, createdAt := t1, updatedAt := t2 }] := by
  have hfp1 : (buildAlertGroup a1 t1).fingerprint = generateFingerprint a1.labels := rfl
  have hfp2 : (buildAlertGroup a2 t2).fingerprint = generateFingerprint a1.labels := hfp
  have h1 : (processOne st a1 t1).1 = st ++ [insertedRow st (buildAlertGroup a1 t1)] :=
    upsertAlert_absent st (buildAlertGroup a1 t1) habs
  show ((upsertAlert (processOne st a1 t1).1 (buildAlertGroup a2 t2)).filter
    (fun r => r.fingerprint == generateFingerprint a1.labels)) = _
  rw [h1]
  have hins : (insertedRow st (buildAlertGroup a1 t1)).fingerprint =
      generateFingerprint a1.labels := rfl
  have hany : ((st ++ [insertedRow st (buildAlertGroup a1 t1)]).any
      (fun r => r.fingerprint == (buildAlertGroup a2 t2).fingerprint)) = true := by
    rw [List.any_append]
    have hone : ((insertedRow st (buildAlertGroup a1 t1)).fingerprint ==
        (buildAlertGroup a2 t2).fingerprint) = true := by
      rw [hins, hfp2]
      exact beq_self_eq_true _
    simp [hone]
  rw [upsertAlert, if_pos hany, List.map_append, List.filter_append]
  have hst : ((st.map (fun r =>
      if r.fingerprint == (buildAlertGroup a2 t2).fingerprint then
        applyUpdate (buildAlertGroup a2 t2) r else r)).filter
      (fun r => r.fingerprint == generateFingerprint a1.labels)) = [] := by
    rw [List.filter_eq_nil_iff]
    intro x hx
    rw [List.mem_map] at hx
    obtain ⟨r, hr, hxr⟩ := hx
    have hne : (r.fingerprint == (buildAlertGroup a2 t2).fingerprint) = false := by
      rw [hfp2]
      exact beq_false_of_ne (habs r hr)
    rw [hne] at hxr
    simp only [Bool.false_eq_true, if_false] at hxr
    subst hxr
    simp [beq_false_of_ne (habs r hr)]
  rw [hst, List.nil_append]
  have hupd : ((insertedRow st (buildAlertGroup a1 t1)).fingerprint ==
      (buildAlertGroup a2 t2).fingerprint) = true := by
    rw [hins, hfp2]
    exact beq_self_eq_true _
  simp only [List.map_cons, List.map_nil, hupd, if_true, List.filter_cons]
  have hkeep : ((applyUpdate (buildAlertGroup a2 t2)
      (insertedRow st (buildAlertGroup a1 t1))).fingerprint ==
      generateFingerprint a1.labels) = true := by
    show ((insertedRow st (buildAlertGroup a1 t1)).fingerprint ==
      generateFingerprint a1.labels) = true
    rw [hins]
    exact beq_self_eq_true _
  simp only [hkeep, if_true, List.filter_nil]
  rfl

/-- Witness for C3: from an empty table, a firing event followed by a
resolved event for the same label set leaves one row with the first
event's `createdAt`, the second event's `updatedAt`, status and
annotations. -/
theorem upsert_same_fingerprint_twice_witness :
    ((processOne (processOne [] c3Alert1 10).1 c3Alert2 20).1.filter
      (fun r => r.fingerprint == generateFingerprint c3Alert1.labels)) =
    [{ id := 1, fingerprint := generateFingerprint c3Alert1.labels, status := "resolved",
       severity := goSeverity c3Alert2.labels,
       summary := goSummary c3Alert2.labels c3Alert2.annotations,
       description := goDescription c3Alert2.annotations, labels := c3Alert2.labels,
       annotations := c3Alert2.annotations, createdAt := 10, updatedAt := 20 }] :=
  upsert_same_fingerprint_twice [] c3Alert1 c3Alert2 10 20 rfl (by simp)

/-- Claim C6 counterexample: the claim says an event with empty `rawLabels`
fails with `ValidationError` rather than storing an AlertGroup.  The
ingestion path has no validation: processing a webhook carrying one
label-less alert on an empty table stores exactly one row and reports one
processed group. -/
theorem empty_labels_ingestion_stores :
    (processPrometheusWebhook [] [c6Alert] 5).1.length = 1 ∧
    (processPrometheusWebhook [] [c6Alert] 5).2.length = 1 :=
  ⟨rfl, rfl⟩

/-- Claim C6 as amended: an event with empty `rawLabels` is accepted
silently — the built group's severity defaults to `info`, its fingerprint
is the fixed empty-label-set fingerprint, and after the upsert the table
contains a row under that fingerprint. -/
theorem empty_labels_ingestion_accepted (st : List AlertRow) (annots : Labels)
    (status : String) (now : Int) :
    (processOne st ⟨status, [], annots⟩ now).2.severity = "info" ∧
    (processOne st ⟨status, [], annots⟩ now).2.fingerprint = generateFingerprint [] ∧
    (processOne st ⟨status, [], annots⟩ now).1.any
      (fun r => r.fingerprint == generateFingerprint []) = true := by
  refine ⟨rfl, rfl, ?_⟩
  show (upsertAlert st (buildAlertGroup ⟨status, [], annots⟩ now)).any
    (fun r => r.fingerprint == generateFingerprint []) = true
  unfold upsertAlert
  cases hc : st.any (fun r => r.fingerprint == (buildAlertGroup ⟨status, [], annots⟩ now).fingerprint) with
  | false =>
    simp only [Bool.false_eq_true, if_false, List.any_append, Bool.or_eq_true]
    refine Or.inr ?_
    simp [insertedRow, buildAlertGroup]
  | true =>
    simp only [if_true]
    rw [List.any_eq_true] at hc ⊢
    obtain ⟨r, hr, hbeq⟩ := hc
    refine ⟨applyUpdate (buildAlertGroup ⟨status, [], annots⟩ now) r,
      List.mem_map.mpr ⟨r, hr, ?_⟩, ?_⟩
    · simp [hbeq]
    · simpa using hbeq

/-- Claim C8: the stored severity is the `severity` label defaulting to
`info` when absent or empty; the summary is the `summary` annotation,
falling back to the `alertname` label and then to `""` (through Go map
reads an absent and an empty value are indistinguishable, so the fallback
triggers on absent-or-empty); the description is the `description`
annotation or `""`. -/
theorem ingest_field_derivation (a : InAlert) (now : Int) :
    (buildAlertGroup a now).severity = specSeverity a.labels ∧
    (buildAlertGroup a now).summary = specSummary a.labels a.annotations ∧
    (buildAlertGroup a now).description = specDescription a.annotations := by
  refine ⟨?_, ?_, ?_⟩
  · show goSeverity a.labels = specSeverity a.labels
    unfold goSeverity specSeverity
    rw [lookupGo_eq_getD_lookupOpt]
    cases lookupOpt a.labels "severity" with
    | none => simp
    | some v => by_cases hv : v = "" <;> simp [hv]
  · show goSummary a.labels a.annotations = specSummary a.labels a.annotations
    unfold goSummary specSummary
    rw [lookupGo_eq_getD_lookupOpt, lookupGo_eq_getD_lookupOpt]
    cases lookupOpt a.annotations "summary" with
    | none => cases lookupOpt a.labels "alertname" <;> simp
    | some v =>
      by_cases hv : v = ""
      · cases lookupOpt a.labels "alertname" <;> simp [hv]
      · simp [hv]
  · show goDescription a.annotations = specDescription a.annotations
    unfold goDescription specDescription
    rw [lookupGo_eq_getD_lookupOpt]
    cases lookupOpt a.annotations "description" <;> simp

theorem labelKeys_cons (p : String × String) (t : Labels) :
    labelKeys (p :: t) = p.1 :: labelKeys t := rfl

theorem find?_eq_some_of_mem :
    ∀ {l : Labels} {k v : String}, (labelKeys l).Nodup → (k, v) ∈ l →
      l.find? (fun p => p.1 == k) = some (k, v)
  | [], _, _, _, hm => absurd hm (List.not_mem_nil _)
  | p :: t, k, v, nd, hm => by
    rw [labelKeys_cons] at nd
    cases hpk : (p.1 == k) with
    | true =>
      rw [List.find?_cons_of_pos (p := fun q => q.1 == k) t hpk]
      rcases List.mem_cons.mp hm with heq | hmt
      · rw [heq]
      · exfalso
        have hk : p.1 = k := by simpa using hpk
        have : k ∈ labelKeys t := List.mem_map.mpr ⟨(k, v), hmt, rfl⟩
        rw [hk] at nd
        exact (List.nodup_cons.mp nd).1 this
    | false =>
      rw [List.find?_cons_of_neg _ (by simp [hpk])]
      rcases List.mem_cons.mp hm with heq | hmt
      · exfalso
        have : p.1 = k := by rw [← heq]
        simp [this] at hpk
      · exact find?_eq_some_of_mem (List.nodup_cons.mp nd).2 hmt

theorem find?_eq_none_of_not_mem {l : Labels} {k : String} (h : k ∉ labelKeys l) :
    l.find? (fun p => p.1 == k) = none := by
  rw [List.find?_eq_none]
  intro p hp hpk
  exact h (List.mem_map.mpr ⟨p, hp, by simpa using hpk⟩)

theorem lookupGo_congr {l1 l2 : Labels} (nd1 : (labelKeys l1).Nodup)
    (nd2 : (labelKeys l2).Nodup) {k : String}
    (hk : k ∈ labelKeys l1 ↔ k ∈ labelKeys l2)
    (hv : ∀ v, (k, v) ∈ l1 ↔ (k, v) ∈ l2) :
    lookupGo l1 k = lookupGo l2 k := by
  by_cases hmem : k ∈ labelKeys l1
  · obtain ⟨p, hp, hpk⟩ := List.mem_map.mp hmem
    have hp1 : (k, p.2) ∈ l1 := by
      have : (k, p.2) = p := by rw [← hpk]
      rwa [this]
    have hp2 : (k, p.2) ∈ l2 := (hv p.2).mp hp1
    rw [lookupGo, lookupGo, find?_eq_some_of_mem nd1 hp1, find?_eq_some_of_mem nd2 hp2]
  · have hmem2 : k ∉ labelKeys l2 := fun h => hmem (hk.mpr h)
    rw [lookupGo, lookupGo, find?_eq_none_of_not_mem hmem, find?_eq_none_of_not_mem hmem2]

theorem excludedKey_false_iff (k : String) :
    excludedKey k = false ↔ k ≠ "severity" ∧ k.startsWith "__" = false := by
  rw [excludedKey, Bool.or_eq_false_iff, beq_eq_false_iff_ne]

theorem sortedKeys_nodup {l : Labels} (nd : (labelKeys l).Nodup) : (sortedKeys l).Nodup :=
  ((List.mergeSort_perm (labelKeys l) _).nodup_iff).mpr nd

theorem mem_sortedKeys {l : Labels} {k : String} : k ∈ sortedKeys l ↔ k ∈ labelKeys l :=
  (List.mergeSort_perm (labelKeys l) _).mem_iff

theorem filteredSortedKeys_eq {l1 l2 : Labels} (nd1 : (labelKeys l1).Nodup)
    (nd2 : (labelKeys l2).Nodup)
    (hk : ∀ k, excludedKey k = false → (k ∈ labelKeys l1 ↔ k ∈ labelKeys l2)) :
    (sortedKeys l1).filter (fun k => !excludedKey k) =
      (sortedKeys l2).filter (fun k => !excludedKey k) := by
  apply List.eq_of_perm_of_sorted (r := (· ≤ ·))
  · apply (List.perm_ext_iff_of_nodup ((sortedKeys_nodup nd1).filter _)
      ((sortedKeys_nodup nd2).filter _)).mpr
    intro k
    rw [List.mem_filter, List.mem_filter, mem_sortedKeys, mem_sortedKeys]
    constructor
    · rintro ⟨hm, hex⟩
      exact ⟨(hk k (by simpa using hex)).mp hm, hex⟩
    · rintro ⟨hm, hex⟩
      exact ⟨(hk k (by simpa using hex)).mpr hm, hex⟩
  · exact (List.sorted_mergeSort' (labelKeys l1)).filter _
  · exact (List.sorted_mergeSort' (labelKeys l2)).filter _

theorem canonicalString_congr {l1 l2 : Labels} (nd1 : (labelKeys l1).Nodup)
    (nd2 : (labelKeys l2).Nodup)
    (hk : ∀ k, excludedKey k = false → (k ∈ labelKeys l1 ↔ k ∈ labelKeys l2))
    (hv : ∀ k v, excludedKey k = false → ((k, v) ∈ l1 ↔ (k, v) ∈ l2)) :
    canonicalString l1 = canonicalString l2 := by
  unfold canonicalString canonicalParts
  rw [filteredSortedKeys_eq nd1 nd2 hk]
  congr 1
  apply List.map_congr_left
  intro k hkmem
  rw [List.mem_filter] at hkmem
  have hexf : excludedKey k = false := by simpa using hkmem.2
  have : lookupGo l1 k = lookupGo l2 k :=
    lookupGo_congr nd1 nd2 (hk k hexf) (fun v => hv k v hexf)
  rw [this]

/-- Claim C4: fingerprints agree for label mappings with the same pairs up
to iteration order, for mappings differing only in the value of
`severity`, and for mappings differing only in keys with the reserved
prefix `__` (the nodup hypotheses state that each mapping has distinct
keys, as a Go map does). -/
theorem generateFingerprint_invariance (l1 l2 : Labels)
    (nd1 : (labelKeys l1).Nodup) (nd2 : (labelKeys l2).Nodup)
    (h : samePairsUpToOrder l1 l2 ∨ differOnlyInSeverityValue l1 l2 ∨
      differOnlyInReservedKeys l1 l2) :
    generateFingerprint l1 = generateFingerprint l2 := by
  have hcanon : canonicalString l1 = canonicalString l2 := by
    rcases h with hp | hs | hr
    · have hperm : l1.Perm l2 := hp
      refine canonicalString_congr nd1 nd2 ?_ ?_
      · intro k _
        exact (hperm.map Prod.fst).mem_iff
      · intro k v _
        exact hperm.mem_iff
    · obtain ⟨hks, hvs⟩ := hs
      refine canonicalString_congr nd1 nd2 (fun k _ => hks k) ?_
      intro k v hex
      exact hvs k v ((excludedKey_false_iff k).mp hex).1
    · refine canonicalString_congr nd1 nd2 ?_ ?_
      · intro k hex
        exact (hr k ((excludedKey_false_iff k).mp hex).2).1
      · intro k v hex
        exact (hr k ((excludedKey_false_iff k).mp hex).2).2 v
  unfold generateFingerprint
  rw [hcanon]

/-- Witness for C4: two orderings of the same three-label mapping (one of
the labels being `severity`) have equal fingerprints. -/
theorem generateFingerprint_invariance_witness :
    (labelKeys c4Labels1).Nodup ∧ (labelKeys c4Labels2).Nodup ∧
    samePairsUpToOrder c4Labels1 c4Labels2 ∧
    generateFingerprint c4Labels1 = generateFingerprint c4Labels2 :=
  ⟨by decide, by decide, by show c4Labels1.Perm c4Labels2; decide,
   generateFingerprint_invariance c4Labels1 c4Labels2 (by decide) (by decide)
     (Or.inl (by show c4Labels1.Perm c4Labels2; decide))⟩

theorem hexChar_mem (n : Nat) : hexChar n ∈ hexDigitChars := by
  rcases Nat.lt_or_ge n 16 with h | h
  · interval_cases n <;> decide
  · rw [hexChar, List.getD_eq_default]
    · decide
    · simpa [hexDigitChars] using h

theorem mem_hexRender {c : Char} {bs : List Nat} (h : c ∈ hexRender bs) :
    c ∈ hexDigitChars := by
  rw [hexRender, List.mem_flatten] at h
  obtain ⟨l, hl, hc⟩ := h
  rw [List.mem_map] at hl
  obtain ⟨b, _, rfl⟩ := hl
  rcases List.mem_cons.mp hc with rfl | hc2
  · exact hexChar_mem _
  · rcases List.mem_cons.mp hc2 with rfl | hc3
    · exact hexChar_mem _
    · exact absurd hc3 (List.not_mem_nil _)

theorem hexRender_length (bs : List Nat) : (hexRender bs).length = 2 * bs.length := by
  induction bs with
  | nil => rfl
  | cons b t ih =>
    show (byteHex b ++ hexRender t).length = 2 * (t.length + 1)
    rw [List.length_append, ih]
    simp [byteHex]
    omega

theorem sha256Bytes_length (m : List Nat) : (sha256Bytes m).length = 32 := rfl

theorem canonicalString_nil : canonicalString [] = "" := by
  have h : canonicalParts [] = [] := by
    unfold canonicalParts sortedKeys labelKeys
    rw [List.map_nil, List.mergeSort_nil]
    rfl
  rw [canonicalString, h]
  rfl

set_option maxRecDepth 100000 in
/-- Claim C5: `generateFingerprint` is total, its output is always exactly
16 lowercase hexadecimal characters, and the empty label mapping yields
the fixed fingerprint `e3b0c44298fc1c14` (the first 8 bytes of the SHA-256
digest of the empty string). -/
theorem generateFingerprint_shape (l : Labels) :
    (generateFingerprint l).length = 16 ∧
    (∀ c, c ∈ (generateFingerprint l).data → c ∈ hexDigitChars) ∧
    generateFingerprint [] = "e3b0c44298fc1c14" := by
  refine ⟨?_, ?_, ?_⟩
  · show (hexRender ((sha256Bytes (utf8Bytes (canonicalString l))).take 8)).length = 16
    rw [hexRender_length, List.length_take, sha256Bytes_length]
    decide
  · intro c hc
    exact mem_hexRender (show c ∈ hexRender _ from hc)
  · unfold generateFingerprint
    rw [canonicalString_nil]
    rfl

/-- Witness for C5 at the empty label mapping and the digit `e` of its
fingerprint. -/
theorem generateFingerprint_shape_witness :
    (generateFingerprint []).length = 16 ∧ 'e' ∈ hexDigitChars :=
  ⟨(generateFingerprint_shape []).1,
   (generateFingerprint_shape []).2.1 'e'
     (by rw [(generateFingerprint_shape []).2.2]; decide)⟩
